import Mathlib

/-!
Verification development for the purple-check-agent repository.

The repository harvests Reddit posts, classifies and scores them with an
LLM, and persists results.  The definitions below are shallow embeddings of
the Python functions in `src/` (file and line references in the doc
comments).  External collaborators (the JSON parser of the standard
library, the network, the LLM service) are modelled as explicit parameters:
an LLM invocation outcome is an `Except Unit String` (an exception or the
returned text) and the behaviour of `json.loads` on extracted spans is a
parameter `loads : String → Option JObj` (`none` models a raised
`JSONDecodeError`).
-/

namespace PurpleCheck

/-- A JSON value as far as the pipeline inspects one: the classification
and scoring responses are expected to carry booleans, strings and nulls;
numbers are included for Python-truthiness fidelity.  Nested arrays and
objects in these positions are not modelled. -/
inductive JVal where
  | null : JVal
  | bool (b : Bool) : JVal
  | num (n : Int) : JVal
  | str (s : String) : JVal
deriving DecidableEq

/-- A parsed JSON object: an association list, looked up with `dict.get`
semantics. -/
def JObj := List (String × JVal)

/-- `dict.get(key, default)`. -/
def JObj.getD (o : JObj) (key : String) (dflt : JVal) : JVal :=
  match List.lookup key o with
  | some v => v
  | none => dflt

/-- Python truthiness of the modelled JSON values. -/
def truthy : JVal → Bool
  | .null => false
  | .bool b => b
  | .num n => n != 0
  | .str s => s != ""

/-- Python `str(...)` of the modelled JSON values, as used when a value is
formatted into an f-string. -/
def pyStr : JVal → String
  | .null => "None"
  | .bool true => "True"
  | .bool false => "False"
  | .num n => toString n
  | .str s => s

/-- Model of `re.search(r"\x7b.*\x7d", response, re.DOTALL)`: with the
greedy `.*` over a DOTALL stream, the match (when it exists) runs from the
first opening brace to the last closing brace after it; otherwise the
search fails.  Returns the matched span. -/
def braceSpan (s : String) : Option String :=
  let cs := s.data
  match cs.findIdx? (· = '{') with
  | none => none
  | some i =>
    match cs.reverse.findIdx? (· = '}') with
    | none => none
    | some jr =>
      let j := cs.length - 1 - jr
      if i < j then some ⟨(cs.drop i).take (j - i + 1)⟩ else none

/-- Python `s.strip()` on the character sequence: drop whitespace from
both ends. -/
def pyStrip (s : String) : String :=
  ⟨((s.data.dropWhile Char.isWhitespace).reverse.dropWhile
      Char.isWhitespace).reverse⟩

/-- Python `s[:n]`: the first `n` characters. -/
def pyTake (s : String) (n : Nat) : String :=
  ⟨s.data.take n⟩

/-- Username normalisation of `extract_instagram_username`
(src/src/process.py:203, src/src/llm.py:224):
`username.strip().lower().replace("@", "")` — trim surrounding whitespace,
lower-case, then delete every `@` character (`replace` substitutes all
occurrences, not only a leading one). -/
def normalize_username (s : String) : String :=
  ⟨((pyStrip s).data.map Char.toLower).filter (fun c => c ≠ '@')⟩

/-- Modelled from the spec: the handle normalisation as §3 words it —
"normalized to lower-case with leading marker stripped", the rest of the
string unchanged. -/
def spec_normalize_username (s : String) : String :=
  match s.data.map Char.toLower with
  | '@' :: rest => ⟨rest⟩
  | l => ⟨l⟩

/-- Shallow embedding of `extract_instagram_username`
(src/src/process.py:165-211, identical in src/src/llm.py:185-232).
`response` is the outcome of the LLM invocation (`.error` models a raised
exception, caught by the surrounding `except`); `loads` models
`json.loads` on the extracted span (`none` models a raised decode error,
likewise caught).  On the parsed object the code reads
`result.get("is_relevant", False)` (used only for its truthiness) and
`result.get("username")`; a truthy non-string username makes
`username.strip()` raise `AttributeError`, which the same `except` turns
into `(False, None)`; falsy non-string values are returned unchanged by
the Python code and are collapsed to `none` here (downstream only their
falsiness is used). -/
def extract_instagram_username (loads : String → Option JObj)
    (response : Except Unit String) : Bool × Option String :=
  match response with
  | .error _ => (false, none)
  | .ok resp =>
    match braceSpan resp with
    | none => (false, none)
    | some matched =>
      match loads matched with
      | none => (false, none)
      | some result =>
        let is_relevant := truthy (result.getD "is_relevant" (.bool false))
        match result.getD "username" .null with
        | .str s =>
          if s != "" then (is_relevant, some (normalize_username s))
          else (is_relevant, some "")
        | .bool true => (false, none)
        | .bool false => (is_relevant, none)
        | .num n => if n != 0 then (false, none) else (is_relevant, none)
        | .null => (is_relevant, none)

/-- Shallow embedding of `analyze_sentiment`
(src/src/process.py:214-265, identical in src/src/llm.py:235-288).  Any
invocation exception, missing brace span, or decode failure yields the
documented `("neutral", "low")` default; otherwise the code reads
`result.get("sentiment", "neutral")` and `result.get("confidence", "low")`
(non-string JSON values would later be rendered through their Python
string form, modelled by `pyStr`). -/
def analyze_sentiment (loads : String → Option JObj)
    (response : Except Unit String) : String × String :=
  match response with
  | .error _ => ("neutral", "low")
  | .ok resp =>
    match braceSpan resp with
    | none => ("neutral", "low")
    | some matched =>
      match loads matched with
      | none => ("neutral", "low")
      | some result =>
        (pyStr (result.getD "sentiment" (.str "neutral")),
         pyStr (result.getD "confidence" (.str "low")))

/-- The fixed sentiment-to-rating table of `insert_feedback`
(src/src/db.py:46, src/src/feedback_db.py:22, src/src/process.py:299). -/
def rating_map : List (String × String) :=
  [("positive", "POSITIVE"), ("negative", "NEGATIVE"), ("neutral", "NEUTRAL")]

/-- `rating_map.get(sentiment, "NEUTRAL")`
(src/src/db.py:47, src/src/feedback_db.py:23, src/src/process.py:300). -/
def mapSentimentToRating (sentiment : String) : String :=
  match List.lookup sentiment rating_map with
  | some r => r
  | none => "NEUTRAL"

/-- A flattened comment as built by `extract_comments`:
`{"author": ..., "body": ..., "score": ...}`. -/
structure Comment where
  author : String
  body : String
  score : Int
deriving DecidableEq

/-- The Reddit comment-tree shape the recursive walker distinguishes
(src/src/fetch.py:106-129, src/src/process.py:63-89, src/src/utils.py:45-71):
a dict of kind `"t1"` (a comment, whose `replies` field is either another
dict — `some` — or absent / the empty-string sentinel / any non-dict —
`none`), a dict of kind `"Listing"` (an ordered list of children), or
anything else (a dict of another kind or a non-dict value), which the
walker ignores. -/
inductive RNode where
  | comment (author body : String) (score : Int) (replies : Option RNode) : RNode
  | listing (children : List RNode) : RNode
  | other : RNode

mutual

/-- Shallow embedding of the recursive `extract_comments`
(src/src/fetch.py:106-129, identical in src/src/process.py and
src/src/utils.py): depth-first, a comment node is emitted before its
replies are visited, and is emitted only when its body is neither
`"[deleted]"` nor `"[removed]"` and its author is not `"[deleted]"`;
recursion into `replies` happens whether or not the node was emitted. -/
def extract_comments : RNode → List Comment
  | .comment author body score replies =>
    (if (body != "[deleted]" && body != "[removed]") && author != "[deleted]"
     then [⟨author, body, score⟩] else [])
    ++ (match replies with
        | some r => extract_comments r
        | none => [])
  | .listing children => extract_comments_children children
  | .other => []

/-- The `for child in children` loop of `extract_comments` on a Listing
node. -/
def extract_comments_children : List RNode → List Comment
  | [] => []
  | c :: cs => extract_comments c ++ extract_comments_children cs

end

mutual

/-- The same depth-first traversal with no filtering: every visited
comment node, in traversal order. -/
def allComments : RNode → List Comment
  | .comment author body score replies =>
    ⟨author, body, score⟩ ::
      (match replies with
       | some r => allComments r
       | none => [])
  | .listing children => allComments_children children
  | .other => []

/-- `allComments` over the children of a Listing node. -/
def allComments_children : List RNode → List Comment
  | [] => []
  | c :: cs => allComments c ++ allComments_children cs

end

/-- The filtering condition of `extract_comments`: body is not a
deleted/removed placeholder and author is not the deleted-user sentinel. -/
def visibleComment (c : Comment) : Bool :=
  (c.body != "[deleted]" && c.body != "[removed]") && c.author != "[deleted]"

/-- One element of the `children` array of a listing page as the harvester
inspects it (src/src/fetch.py:169-180): the wrapper `kind` and, from the
wrapped `data`, the fields the loop reads — `name` (`none` when absent)
and `created_utc` (`post_data.get("created_utc", 0)`; absent is modelled
by 0, the default the code substitutes).  The remaining payload fields are
carried along opaquely and play no role in the harvest logic. -/
structure RawChild where
  kind : String
  name : Option String
  created_utc : Int
deriving DecidableEq

/-- One response of the listing endpoint as the harvester inspects it
(src/src/fetch.py:158-185): `children` is `none` when `"data"` or
`"children"` is missing from the response, and `after` is the
continuation token (`none` models JSON null / absence). -/
structure PageResp where
  children : Option (List RawChild)
  after : Option String
deriving DecidableEq

/-- The running state of the `while True` page loop of
`fetch_subreddit_posts` (src/src/fetch.py:142-145). -/
structure HarvestState where
  all_new_posts : List RawChild
  newest_post_id : String
  newest_timestamp : Int
deriving DecidableEq

/-- The body of the `for post in posts` loop
(src/src/fetch.py:169-180): a child is accepted iff its kind is `"t3"`
and its `name` is truthy (present and non-empty); an accepted child is
appended, and strictly newer timestamps advance the watermark pair. -/
def acceptPost (st : HarvestState) (p : RawChild) : HarvestState :=
  if p.kind = "t3" then
    match p.name with
    | some nm =>
      if nm != "" then
        if p.created_utc > st.newest_timestamp then
          ⟨st.all_new_posts ++ [p], nm, p.created_utc⟩
        else
          ⟨st.all_new_posts ++ [p], st.newest_post_id, st.newest_timestamp⟩
      else st
    | none => st
  else st

/-- The page loop of `fetch_subreddit_posts` (src/src/fetch.py:147-191).
The environment `pages` lists the successive outcomes of
`make_reddit_request` (`.error` models the request raising after
exhausting its retries, which the `except` clause turns into a `break`
keeping the partial results).  The loop also breaks when `data`/`children`
is missing, when the page is empty, and when the `after` token is falsy;
an exhausted environment is modelled like a raising request. -/
def harvestLoop : List (Except Unit PageResp) → HarvestState → HarvestState
  | [], st => st
  | page :: rest, st =>
    match page with
    | .error _ => st
    | .ok resp =>
      match resp.children with
      | none => st
      | some posts =>
        if posts.isEmpty then st
        else
          let st1 := posts.foldl acceptPost st
          match resp.after with
          | none => st1
          | some tok => if tok = "" then st1 else harvestLoop rest st1

/-- Shallow embedding of `fetch_subreddit_posts`
(src/src/fetch.py:139-193): returns
`(all_new_posts, newest_post_id, newest_timestamp)`, starting from the
stored watermark id and timestamp 0. -/
def fetch_subreddit_posts (pages : List (Except Unit PageResp))
    (last_post_id : String) : List RawChild × String × Int :=
  let st := harvestLoop pages ⟨[], last_post_id, 0⟩
  (st.all_new_posts, st.newest_post_id, st.newest_timestamp)

/-- The fields of a post that the processing engine and the result sink
read (src/src/process.py): `id` (`post.get("id")`), `title`, `selftext`
and `permalink` (fetched with default `""`), and `author` (`none` models
the key being absent, in which case `post.get("author", "unknown")`
substitutes `"unknown"`). -/
structure Post where
  id : Option String
  title : String
  selftext : String
  author : Option String
  permalink : String
deriving DecidableEq

/-- A row of the `feedback` table as written by `insert_feedback`
(src/src/process.py:305-315): the INSERT supplies the four variable
columns and the five fixed tags; `updated_at` is modelled as a logical
timestamp supplied by the caller (`CURRENT_TIMESTAMP` at write time). -/
structure FeedbackRow where
  giver : String
  receiver : String
  rating : String
  comment : String
  platform : String
  medium : String
  source : String
  giver_role : String
  receiver_role : String
  updated_at : Nat
deriving DecidableEq

/-- Whether a row occupies the `(giver, receiver)` key of `row`. -/
def sameKey (row r : FeedbackRow) : Bool :=
  r.giver = row.giver && r.receiver = row.receiver

/-- The `ON CONFLICT(giver, receiver) DO UPDATE` upsert
(src/src/process.py:305-315): when a row with the same `(giver, receiver)`
key exists its `rating`, `comment` and `updated_at` are replaced in
place, otherwise the new row is appended. -/
def upsertFeedback (table : List FeedbackRow) (row : FeedbackRow) :
    List FeedbackRow :=
  if table.any (sameKey row) then
    table.map (fun r =>
      if sameKey row r then
        { r with rating := row.rating, comment := row.comment,
                 updated_at := row.updated_at }
      else r)
  else table ++ [row]

/-- Python `"\n".join(parts)`. -/
def joinNL : List String → String
  | [] => ""
  | [x] => x
  | x :: xs => x ++ "\n" ++ joinNL xs

/-- The comment text assembled by `insert_feedback`
(src/src/process.py:284-296): the title line; the post body truncated to
500 characters when the selftext is non-empty; a header plus the first
five comment bodies truncated to 150 characters when there are comments;
the Reddit link line; and the confidence line; joined by newlines. -/
def build_comment_text (post : Post) (comments : List Comment)
    (confidence : String) : String :=
  let parts :=
    ["Title: " ++ post.title]
    ++ (if post.selftext != "" then ["Post: " ++ pyTake post.selftext 500] else [])
    ++ (if comments != [] then
          ("\nTop comments (" ++ toString comments.length ++ "):")
            :: (comments.take 5).map (fun c => "- " ++ pyTake c.body 150)
        else [])
    ++ ["\nReddit link: https://reddit.com" ++ post.permalink,
        "Confidence: " ++ confidence]
  joinNL parts

/-- The row `insert_feedback` writes (src/src/process.py:276-314, the
same function appears in src/src/db.py:15-69): giver is
`post.get("author", "unknown")`, receiver falls back to
`"unknown_instagram_user"` for a falsy (absent or empty) username, rating
comes from the fixed map, and the tags are the five literals of the
INSERT statement. -/
def mkFeedbackRow (post : Post) (username : Option String)
    (sentiment confidence : String) (comments : List Comment)
    (now : Nat) : FeedbackRow :=
  let giver := post.author.getD "unknown"
  let receiver :=
    match username with
    | some s => if s != "" then s else "unknown_instagram_user"
    | none => "unknown_instagram_user"
  { giver := giver, receiver := receiver,
    rating := mapSentimentToRating sentiment,
    comment := build_comment_text post comments confidence,
    platform := "INSTAGRAM", medium := "DIRECT", source := "REDDIT",
    giver_role := "buyer", receiver_role := "seller", updated_at := now }

/-- Shallow embedding of `insert_feedback` (src/src/process.py:268-322):
an upsert of the constructed row into the feedback table. -/
def insert_feedback (table : List FeedbackRow) (post : Post)
    (username : Option String) (sentiment confidence : String)
    (comments : List Comment) (now : Nat) : List FeedbackRow :=
  upsertFeedback table (mkFeedbackRow post username sentiment confidence comments now)

/-- The per-item outcomes of the external calls made inside one run of
`process_posts`: the LLM response of the relevance call, the behaviour of
`json.loads` on extracted spans, the comment-fetch outcome (`.error`
models `fetch_comments` raising), and the LLM response of the scoring
call. -/
structure ProcEnv where
  classify_response : Post → Except Unit String
  loads : String → Option JObj
  fetch_comments_result : Post → Except Unit (List Comment)
  sentiment_response : Post → Except Unit String

/-- The observable state of one `process_posts` run: the in-memory
checkpoint set `processed_ids` (Python set of `post.get("id")` values),
the successive snapshots written by `save_progress`, the feedback table,
the posts whose loop iteration was entered, and a logical clock for
`updated_at`. -/
structure EngineState where
  processed_ids : Finset (Option String)
  saved : List (Finset (Option String))
  feedback : List FeedbackRow
  attempted : List Post
  clock : Nat
deriving DecidableEq

/-- The body of the per-item loop of `process_posts`
(src/src/process.py:343-411), for the item at 1-based position `idx`.
Image downloading cannot fail the item and its result only feeds the LLM
calls, which the environment already abstracts, so it leaves no trace
here.  A non-relevant (or failed) classification checkpoints the id and
continues; a raising comment fetch is re-raised, and the generic handler
saves progress and re-raises (`.error`, with the failing id not added);
otherwise scoring, the feedback write, the checkpoint insert and the
every-5-items progress save happen in order. -/
def processOne (env : ProcEnv) (idx : Nat) (post : Post)
    (st : EngineState) : Except EngineState EngineState :=
  let st := { st with attempted := st.attempted ++ [post] }
  let cls := extract_instagram_username env.loads (env.classify_response post)
  if !cls.1 then
    .ok { st with processed_ids := insert post.id st.processed_ids }
  else
    match env.fetch_comments_result post with
    | .error _ => .error { st with saved := st.saved ++ [st.processed_ids] }
    | .ok comments =>
      let sc := analyze_sentiment env.loads (env.sentiment_response post)
      let st := { st with
        feedback := insert_feedback st.feedback post cls.2 sc.1 sc.2 comments st.clock,
        clock := st.clock + 1 }
      let st := { st with processed_ids := insert post.id st.processed_ids }
      if idx % 5 = 0 then .ok { st with saved := st.saved ++ [st.processed_ids] }
      else .ok st

/-- The `for idx, post in enumerate(posts_to_process, 1)` loop
(src/src/process.py:343): an exception raised by an item aborts the loop
with the state at the raise. -/
def runLoop (env : ProcEnv) :
    List Post → Nat → EngineState → Except EngineState EngineState
  | [], _, st => .ok st
  | p :: rest, idx, st =>
    match processOne env idx p st with
    | .ok st1 => runLoop env rest (idx + 1) st1
    | .error st1 => .error st1

/-- The scheduling filter of `process_posts` (src/src/process.py:336-339):
the posts whose id is not in the loaded progress set, in list order,
truncated when a truthy limit was passed (Python `if limit:` — a limit of
0 is falsy and does not truncate). -/
def posts_to_process (all_posts : List Post)
    (progress : Finset (Option String)) (limit : Option Nat) : List Post :=
  let l := all_posts.filter (fun p => decide (p.id ∉ progress))
  match limit with
  | some n => if n ≠ 0 then l.take n else l
  | none => l

/-- The engine state at the top of a run: the loaded progress set, no
saves yet, and (for this model) an empty feedback table and clock 0. -/
def initState (progress : Finset (Option String)) : EngineState :=
  ⟨progress, [], [], [], 0⟩

/-- Shallow embedding of `process_posts` (src/src/process.py:325-416):
posts and the loaded progress set are parameters standing for the two
files read at the top of the function; a normally completed loop performs
the final `save_progress` (`.ok`), while a propagating exception skips it
(`.error`, the per-item handler having already saved). -/
def process_posts (env : ProcEnv) (all_posts : List Post)
    (progress : Finset (Option String)) (limit : Option Nat) :
    Except EngineState EngineState :=
  match runLoop env (posts_to_process all_posts progress limit) 1 (initState progress) with
  | .ok st => .ok { st with saved := st.saved ++ [st.processed_ids] }
  | .error st => .error st

/-- Invariant of the harvest loop relating the watermark pair to the list
of accepted items: while no accepted item has beaten the initial timestamp
0 the watermark is still `(last_post_id, 0)` and every accepted timestamp
is at most 0; once the watermark timestamp is positive, the accepted list
decomposes around the earliest accepted item that reached it, with
everything before strictly older and everything after no newer. -/
def harvestInv (last : String) (st : HarvestState) : Prop :=
  (st.newest_timestamp ≤ 0 →
    st.newest_timestamp = 0 ∧ st.newest_post_id = last ∧
      ∀ q ∈ st.all_new_posts, q.created_utc ≤ 0) ∧
  (0 < st.newest_timestamp →
    ∃ pre w suf, st.all_new_posts = pre ++ w :: suf ∧
      w.name = some st.newest_post_id ∧
      w.created_utc = st.newest_timestamp ∧
      (∀ q ∈ pre, q.created_utc < st.newest_timestamp) ∧
      (∀ q ∈ suf, q.created_utc ≤ st.newest_timestamp))

/-- A concrete post used to instantiate the engine theorems. -/
def cPost (i : String) : Post :=
  ⟨some i, "title " ++ i, "body " ++ i, some "redditor", "/r/x/" ++ i⟩

/-- An environment in which every relevance classification raises and
every comment fetch succeeds with no comments. -/
def cEnvSkip : ProcEnv :=
  ⟨fun _ => .error (), fun _ => none, fun _ => .ok [], fun _ => .error ()⟩

/-- An environment in which classification finds every post relevant and
every comment fetch raises. -/
def cEnvFetchFail : ProcEnv :=
  ⟨fun _ => .ok "\x7ba\x7d",
   fun _ => some [("is_relevant", JVal.bool true)],
   fun _ => .error (),
   fun _ => .error ()⟩

/-- An environment in which classification finds every post relevant, the
comment fetch succeeds with no comments, and the scoring call raises. -/
def cEnvScoreFail : ProcEnv :=
  ⟨fun _ => .ok "\x7ba\x7d",
   fun _ => some [("is_relevant", JVal.bool true)],
   fun _ => .ok [],
   fun _ => .error ()⟩

/-- A concrete post whose `author` key is absent. -/
def cPostNoAuthor : Post :=
  ⟨some "9", "a title", "a body", none, "/r/x/9"⟩

/-- The spec example harvest: one page with items at timestamps
`[5, 9, 3]`. -/
def cPages4 : List (Except Unit PageResp) :=
  [.ok ⟨some [⟨"t3", some "t3_a", 5⟩, ⟨"t3", some "t3_b", 9⟩,
              ⟨"t3", some "t3_c", 3⟩], none⟩]

/-! ## Theorems -/

/-- C8: the sentiment-to-rating mapping used by the result sink is total
and never errors: `"positive"`, `"negative"` and `"neutral"` map to their
upper-case ratings and every other string maps to `"NEUTRAL"`. -/
theorem rating_map_total (s : String) :
    mapSentimentToRating s =
      if s = "positive" then "POSITIVE"
      else if s = "negative" then "NEGATIVE"
      else "NEUTRAL" := by
  by_cases h1 : s = "positive"
  · subst h1; decide
  · by_cases h2 : s = "negative"
    · subst h2; decide
    · by_cases h3 : s = "neutral"
      · subst h3; decide
      · simp only [mapSentimentToRating, rating_map, List.lookup,
          if_neg h1, if_neg h2]
        rw [show (s == "positive") = false by simp [beq_eq_false_iff_ne]; exact h1,
            show (s == "negative") = false by simp [beq_eq_false_iff_ne]; exact h2,
            show (s == "neutral") = false by simp [beq_eq_false_iff_ne]; exact h3]

/-- C9 counterexample: a classification response carrying the non-null
handle string `"a@b"` comes back as `"ab"` — the code removes every `@`
character — while the spec-worded normalisation (lower-case, leading
marker stripped, otherwise unchanged) leaves `"a@b"` as it is. -/
theorem normalize_username_counterexample :
    (extract_instagram_username
        (fun _ => some [("is_relevant", JVal.bool true),
                        ("username", JVal.str "a@b")])
        (.ok "\x7bx\x7d")).2 = some "ab" ∧
    spec_normalize_username "a@b" = "a@b" ∧
    normalize_username "a@b" ≠ spec_normalize_username "a@b" := by
  decide

/-- C9 (amended): for every classification response whose parsed object
carries a handle string, the handle returned by
`extract_instagram_username` is that string with surrounding whitespace
trimmed, lower-cased, and with every `@` character removed — not only a
leading `@`. -/
theorem normalize_username_amended (loads : String → Option JObj)
    (resp m : String) (obj : JObj) (s : String)
    (hm : braceSpan resp = some m) (hl : loads m = some obj)
    (hu : obj.getD "username" .null = .str s) :
    (extract_instagram_username loads (.ok resp)).2 =
      some ⟨((pyStrip s).data.map Char.toLower).filter (fun c => c ≠ '@')⟩ := by
  by_cases hs : s = ""
  · subst hs
    simp [extract_instagram_username, hm, hl, hu, pyStrip]
  · simp [extract_instagram_username, hm, hl, hu, hs, normalize_username]

/-- C9 witness: the amended normalisation evaluated on the concrete
handle `" A@b "`. -/
theorem normalize_username_amended_witness :
    (extract_instagram_username
        (fun _ => some [("username", JVal.str " A@b ")])
        (.ok "\x7bx\x7d")).2 =
      some ⟨((pyStrip " A@b ").data.map Char.toLower).filter (fun c => c ≠ '@')⟩ ∧
    (⟨((pyStrip " A@b ").data.map Char.toLower).filter (fun c => c ≠ '@')⟩ : String) = "ab" :=
  ⟨normalize_username_amended (fun _ => some [("username", JVal.str " A@b ")])
      "\x7bx\x7d" "\x7bx\x7d" [("username", JVal.str " A@b ")] " A@b "
      (by decide) rfl (by decide),
   by decide⟩

mutual

/-- The flattener emits exactly the visible comment nodes of the
depth-first traversal, in traversal order. -/
theorem extract_eq_filter (t : RNode) :
    extract_comments t = (allComments t).filter visibleComment := by
  cases t with
  | comment a b s replies =>
    cases replies with
    | none =>
      cases h : (b != "[deleted]" && b != "[removed]") && a != "[deleted]" <;>
        simp [extract_comments, allComments, List.filter_cons, visibleComment, h]
    | some r =>
      have ih := extract_eq_filter r
      cases h : (b != "[deleted]" && b != "[removed]") && a != "[deleted]" <;>
        simp [extract_comments, allComments, List.filter_cons, visibleComment, h, ih]
  | listing children =>
    have ih := extract_eq_filter_children children
    simpa [extract_comments, allComments] using ih
  | other => simp [extract_comments, allComments]

/-- `extract_eq_filter` for the child list of a Listing node. -/
theorem extract_eq_filter_children (ts : List RNode) :
    extract_comments_children ts = (allComments_children ts).filter visibleComment := by
  cases ts with
  | nil => simp [extract_comments_children, allComments_children]
  | cons c cs =>
    have ih1 := extract_eq_filter c
    have ih2 := extract_eq_filter_children cs
    simp [extract_comments_children, allComments_children, List.filter_append, ih1, ih2]

end

/-- C5: the flattener `extract_comments` emits comments in depth-first
order and excludes exactly the comment nodes whose body is a
deleted/removed placeholder or whose author is the deleted sentinel,
still recursing into the replies of an excluded node: in general it returns
the visibility-filtered depth-first traversal, and on a tree with a
visible root, a removed-body child and a visible grandchild under it, it
returns exactly the root and the grandchild. -/
theorem flattener_filtering :
    (∀ t : RNode, extract_comments t = (allComments t).filter visibleComment) ∧
    extract_comments
        (.listing [.comment "u1" "hello" 1 (some (.listing
          [.comment "u2" "[removed]" 0 (some (.listing
            [.comment "u3" "visible" 2 none]))]))]) =
      [⟨"u1", "hello", 1⟩, ⟨"u3", "visible", 2⟩] :=
  ⟨extract_eq_filter, by decide⟩

/-- An item surviving one step of the accept loop was already there, or
is the stepped item and carries a non-empty id. -/
theorem acceptPost_mem (st : HarvestState) (p q : RawChild)
    (h : q ∈ (acceptPost st p).all_new_posts) :
    q ∈ st.all_new_posts ∨ (q = p ∧ ∃ nm, p.name = some nm ∧ nm ≠ "") := by
  unfold acceptPost at h
  repeat' split at h
  all_goals simp_all [List.mem_append]

/-- `acceptPost_mem` over a whole page. -/
theorem foldl_accept_mem (ps : List RawChild) (st : HarvestState) (q : RawChild)
    (h : q ∈ (ps.foldl acceptPost st).all_new_posts) :
    q ∈ st.all_new_posts ∨ (∃ nm, q.name = some nm ∧ nm ≠ "") := by
  induction ps generalizing st with
  | nil => exact Or.inl h
  | cons p ps ih =>
    simp only [List.foldl_cons] at h
    rcases ih _ h with h1 | h2
    · rcases acceptPost_mem st p q h1 with h3 | ⟨rfl, nm, hnm, hne⟩
      · exact Or.inl h3
      · exact Or.inr ⟨nm, hnm, hne⟩
    · exact Or.inr h2

/-- `acceptPost_mem` over the whole page loop. -/
theorem harvestLoop_mem (pages : List (Except Unit PageResp))
    (st : HarvestState) (q : RawChild)
    (h : q ∈ (harvestLoop pages st).all_new_posts) :
    q ∈ st.all_new_posts ∨ (∃ nm, q.name = some nm ∧ nm ≠ "") := by
  induction pages generalizing st with
  | nil => exact Or.inl h
  | cons page rest ih =>
    unfold harvestLoop at h
    repeat' split at h
    · exact Or.inl h
    · exact Or.inl h
    · exact Or.inl h
    · exact foldl_accept_mem _ _ _ h
    · exact foldl_accept_mem _ _ _ h
    · rcases ih _ h with h1 | h2
      · exact foldl_accept_mem _ _ _ h1
      · exact Or.inr h2

/-- C1 counterexample: when two consecutive pages overlap on the item
named `t3_x`, the harvested result of `fetch_subreddit_posts` contains
that identifier twice, not at most once. -/
theorem fetch_dedup_counterexample :
    ((fetch_subreddit_posts
        [.ok ⟨some [⟨"t3", some "t3_x", 10⟩], some "tokA"⟩,
         .ok ⟨some [⟨"t3", some "t3_x", 10⟩], none⟩] "t3_prev").1.countP
      (fun p => p.name == some "t3_x")) = 2 := by
  decide

/-- C1 (amended): every item harvested by `fetch_subreddit_posts` carries
a non-empty stable identifier, but the harvester keeps no per-call
de-duplication set: an item delivered on two overlapping pages appears
once per page in the result. -/
theorem fetch_accepts_nonempty_ids_no_dedup :
    (∀ pages last q, q ∈ (fetch_subreddit_posts pages last).1 →
      ∃ nm, q.name = some nm ∧ nm ≠ "") ∧
    (fetch_subreddit_posts
        [.ok ⟨some [⟨"t3", some "t3_x", 10⟩], some "tokA"⟩,
         .ok ⟨some [⟨"t3", some "t3_x", 10⟩], none⟩] "t3_prev").1 =
      [⟨"t3", some "t3_x", 10⟩, ⟨"t3", some "t3_x", 10⟩] := by
  constructor
  · intro pages last q h
    rcases harvestLoop_mem pages ⟨[], last, 0⟩ q h with h1 | h2
    · simp at h1
    · exact h2
  · decide

/-- C1 witness: the non-empty-identifier half evaluated on a concrete
one-page harvest. -/
theorem fetch_accepts_nonempty_ids_no_dedup_witness :
    ∃ nm, (⟨"t3", some "t3_x", 10⟩ : RawChild).name = some nm ∧ nm ≠ "" :=
  fetch_accepts_nonempty_ids_no_dedup.1
    [.ok ⟨some [⟨"t3", some "t3_x", 10⟩], none⟩] "t3_prev"
    ⟨"t3", some "t3_x", 10⟩ (by decide)

/-- The invariant holds at the top of the page loop. -/
theorem harvestInv_init (last : String) : harvestInv last ⟨[], last, 0⟩ :=
  ⟨fun _ => ⟨rfl, rfl, by simp⟩, fun h => absurd h (by norm_num)⟩

/-- The watermark timestamp never goes below its initial value 0. -/
theorem harvestInv_nonneg (last : String) (st : HarvestState)
    (h : harvestInv last st) : 0 ≤ st.newest_timestamp := by
  rcases le_or_lt st.newest_timestamp 0 with hle | hlt
  · exact le_of_eq (h.1 hle).1.symm
  · exact hlt.le

/-- `acceptPost` preserves the harvest invariant. -/
theorem harvestInv_accept (last : String) (st : HarvestState) (p : RawChild)
    (h : harvestInv last st) : harvestInv last (acceptPost st p) := by
  have hnn := harvestInv_nonneg last st h
  by_cases hk : p.kind = "t3"
  case neg => simpa [acceptPost, hk] using h
  cases hname : p.name with
  | none => simpa [acceptPost, hk, hname] using h
  | some nm =>
    by_cases hne : nm = ""
    · simpa [acceptPost, hk, hname, hne] using h
    · by_cases hgt : p.created_utc > st.newest_timestamp
      · have hred : acceptPost st p =
            ⟨st.all_new_posts ++ [p], nm, p.created_utc⟩ := by
          simp [acceptPost, hk, hname, hne, hgt]
        rw [hred]
        unfold harvestInv
        dsimp only
        constructor
        · intro hle
          omega
        · intro _
          refine ⟨st.all_new_posts, p, [], by simp, hname, rfl, ?_, by simp⟩
          intro q hq
          rcases le_or_lt st.newest_timestamp 0 with hle | hlt
          · have hq0 := (h.1 hle).2.2 q hq
            omega
          · obtain ⟨pre, w, suf, heq, _, hwts, hpre, hsuf⟩ := h.2 hlt
            rw [heq] at hq
            rcases List.mem_append.mp hq with hq | hq
            · have := hpre q hq; omega
            · rcases List.mem_cons.mp hq with rfl | hq
              · omega
              · have := hsuf q hq; omega
      · have hred : acceptPost st p =
            ⟨st.all_new_posts ++ [p], st.newest_post_id,
             st.newest_timestamp⟩ := by
          simp [acceptPost, hk, hname, hne, hgt]
        rw [hred]
        unfold harvestInv
        dsimp only
        constructor
        · intro hle
          obtain ⟨h0, hid, hall⟩ := h.1 hle
          refine ⟨h0, hid, ?_⟩
          intro q hq
          rcases List.mem_append.mp hq with hq | hq
          · exact hall q hq
          · simp at hq; subst hq; omega
        · intro hpos
          obtain ⟨pre, w, suf, heq, hwname, hwts, hpre, hsuf⟩ := h.2 hpos
          refine ⟨pre, w, suf ++ [p], ?_, hwname, hwts, hpre, ?_⟩
          · rw [heq]; simp
          · intro q hq
            rcases List.mem_append.mp hq with hq | hq
            · exact hsuf q hq
            · simp at hq; subst hq; omega

/-- The page fold preserves the harvest invariant. -/
theorem harvestInv_foldl (last : String) (ps : List RawChild)
    (st : HarvestState) (h : harvestInv last st) :
    harvestInv last (ps.foldl acceptPost st) := by
  induction ps generalizing st with
  | nil => exact h
  | cons p ps ih => exact ih _ (harvestInv_accept last st p h)

/-- The whole page loop preserves the harvest invariant. -/
theorem harvestInv_loop (last : String) (pages : List (Except Unit PageResp))
    (st : HarvestState) (h : harvestInv last st) :
    harvestInv last (harvestLoop pages st) := by
  induction pages generalizing st with
  | nil => exact h
  | cons page rest ih =>
    unfold harvestLoop
    repeat' split
    · exact h
    · exact h
    · exact h
    · exact harvestInv_foldl last _ st h
    · exact harvestInv_foldl last _ st h
    · exact ih _ (harvestInv_foldl last _ st h)

/-- C4 counterexample: a harvest that accepts exactly one item whose
creation timestamp is 0 (the default substituted for a missing
`created_utc`) returns the stored watermark unchanged — its identifier is
not the identifier of any accepted item, so the watermark does not
identify the accepted item with the maximum timestamp. -/
theorem watermark_zero_timestamp_counterexample :
    (fetch_subreddit_posts
        [.ok ⟨some [⟨"t3", some "t3_a", 0⟩], none⟩] "t3_prev").1 =
      [⟨"t3", some "t3_a", 0⟩] ∧
    (fetch_subreddit_posts
        [.ok ⟨some [⟨"t3", some "t3_a", 0⟩], none⟩] "t3_prev").2 =
      ("t3_prev", 0) ∧
    ∀ q ∈ (fetch_subreddit_posts
        [.ok ⟨some [⟨"t3", some "t3_a", 0⟩], none⟩] "t3_prev").1,
      q.name ≠ some "t3_prev" := by
  decide

/-- C4 (amended): for every harvest call accepting at least one item with
a positive creation timestamp, the accepted list splits around the
earliest-seen accepted item achieving the returned watermark timestamp:
its identifier is the returned watermark id, everything accepted before it
is strictly older, and everything accepted after it is no newer — so the
watermark is the maximum timestamp regardless of arrival order, and a tie
keeps the earlier-seen identifier. -/
theorem watermark_max (pages : List (Except Unit PageResp)) (last : String)
    (h : ∃ p ∈ (fetch_subreddit_posts pages last).1, 0 < p.created_utc) :
    ∃ pre w suf,
      (fetch_subreddit_posts pages last).1 = pre ++ w :: suf ∧
      w.name = some (fetch_subreddit_posts pages last).2.1 ∧
      w.created_utc = (fetch_subreddit_posts pages last).2.2 ∧
      (∀ q ∈ pre, q.created_utc < w.created_utc) ∧
      (∀ q ∈ suf, q.created_utc ≤ w.created_utc) ∧
      (∀ q ∈ (fetch_subreddit_posts pages last).1,
        q.created_utc ≤ (fetch_subreddit_posts pages last).2.2) := by
  have hinv := harvestInv_loop last pages ⟨[], last, 0⟩ (harvestInv_init last)
  have e1 : (fetch_subreddit_posts pages last).1 =
      (harvestLoop pages ⟨[], last, 0⟩).all_new_posts := rfl
  have e2 : (fetch_subreddit_posts pages last).2.1 =
      (harvestLoop pages ⟨[], last, 0⟩).newest_post_id := rfl
  have e3 : (fetch_subreddit_posts pages last).2.2 =
      (harvestLoop pages ⟨[], last, 0⟩).newest_timestamp := rfl
  rw [e1] at h
  rw [e1, e2, e3]
  by_cases hts : (harvestLoop pages ⟨[], last, 0⟩).newest_timestamp ≤ 0
  · obtain ⟨p, hp, hpos⟩ := h
    have := (hinv.1 hts).2.2 p hp
    omega
  · obtain ⟨pre, w, suf, heq, hwname, hwts, hpre, hsuf⟩ := hinv.2 (by omega)
    refine ⟨pre, w, suf, heq, hwname, hwts, ?_, ?_, ?_⟩
    · intro q hq; have := hpre q hq; omega
    · intro q hq; have := hsuf q hq; omega
    · intro q hq
      rw [heq] at hq
      rcases List.mem_append.mp hq with hq | hq
      · have := hpre q hq; omega
      · rcases List.mem_cons.mp hq with rfl | hq
        · omega
        · have := hsuf q hq; omega

/-- C4 witness: the amended watermark theorem evaluated on the spec
example page with timestamps `[5, 9, 3]`; the watermark is the item at
timestamp 9. -/
theorem watermark_max_witness :
    (∃ pre w suf,
      (fetch_subreddit_posts cPages4 "t3_p").1 = pre ++ w :: suf ∧
      w.name = some (fetch_subreddit_posts cPages4 "t3_p").2.1 ∧
      w.created_utc = (fetch_subreddit_posts cPages4 "t3_p").2.2 ∧
      (∀ q ∈ pre, q.created_utc < w.created_utc) ∧
      (∀ q ∈ suf, q.created_utc ≤ w.created_utc) ∧
      (∀ q ∈ (fetch_subreddit_posts cPages4 "t3_p").1,
        q.created_utc ≤ (fetch_subreddit_posts cPages4 "t3_p").2.2)) ∧
    (fetch_subreddit_posts cPages4 "t3_p").2 = ("t3_b", 9) :=
  ⟨watermark_max cPages4 "t3_p" ⟨⟨"t3", some "t3_b", 9⟩, by decide, by decide⟩,
   by decide⟩

/-- String append is associative. -/
theorem string_append_assoc (a b c : String) :
    (a ++ b) ++ c = a ++ (b ++ c) := by
  apply String.ext
  simp [String.data_append]

/-- The empty string is a right identity of append. -/
theorem string_append_empty (a : String) : a ++ "" = a := by
  apply String.ext
  simp [String.data_append]

/-- A newline join ends with its last part. -/
theorem joinNL_ends (xs : List String) (x : String) :
    ∃ c, joinNL (xs ++ [x]) = c ++ x := by
  induction xs with
  | nil =>
    refine ⟨"", ?_⟩
    apply String.ext
    simp [joinNL, String.data_append]
  | cons y ys ih =>
    obtain ⟨c, hc⟩ := ih
    cases ys with
    | nil => exact ⟨y ++ "\n", rfl⟩
    | cons z zs =>
      refine ⟨y ++ "\n" ++ c, ?_⟩
      show y ++ "\n" ++ joinNL ((z :: zs) ++ [x]) = y ++ "\n" ++ c ++ x
      rw [hc, string_append_assoc (y ++ "\n") c x]

/-- A step whose comment fetch succeeds never raises, and appends its
item to the attempted trace. -/
theorem processOne_ok_of_fetch_ok (env : ProcEnv) (idx : Nat) (p : Post)
    (st : EngineState) (cs : List Comment)
    (hf : env.fetch_comments_result p = .ok cs) :
    ∃ st1, processOne env idx p st = .ok st1 ∧
      st1.attempted = st.attempted ++ [p] := by
  simp only [processOne, hf]
  split
  · exact ⟨_, rfl, rfl⟩
  · split
    · exact ⟨_, rfl, rfl⟩
    · exact ⟨_, rfl, rfl⟩

/-- When no comment fetch fails, the loop completes and attempts every
listed item in order. -/
theorem runLoop_ok_of_fetch_ok (env : ProcEnv) (l : List Post) (idx : Nat)
    (st : EngineState)
    (hf : ∀ p, ∃ cs, env.fetch_comments_result p = .ok cs) :
    ∃ st1, runLoop env l idx st = .ok st1 ∧
      st1.attempted = st.attempted ++ l := by
  induction l generalizing idx st with
  | nil => exact ⟨st, rfl, by simp⟩
  | cons p rest ih =>
    obtain ⟨cs, hcs⟩ := hf p
    obtain ⟨st1, h1, h2⟩ := processOne_ok_of_fetch_ok env idx p st cs hcs
    obtain ⟨st2, h3, h4⟩ := ih (idx + 1) st1
    refine ⟨st2, ?_, ?_⟩
    · simp [runLoop, h1, h3]
    · rw [h4, h2]; simp

/-- C6: in a run whose comment fetches all succeed, `process_posts`
attempts exactly those posts of the input list whose id is not in the
loaded checkpoint set, in list order. -/
theorem resume_processes_unprocessed (env : ProcEnv) (all_posts : List Post)
    (progress : Finset (Option String))
    (hf : ∀ p, ∃ cs, env.fetch_comments_result p = .ok cs) :
    ∃ st, process_posts env all_posts progress none = .ok st ∧
      st.attempted = all_posts.filter (fun p => decide (p.id ∉ progress)) := by
  obtain ⟨st1, h1, h2⟩ := runLoop_ok_of_fetch_ok env
    (posts_to_process all_posts progress none) 1 (initState progress) hf
  refine ⟨{ st1 with saved := st1.saved ++ [st1.processed_ids] }, ?_, ?_⟩
  · simp [process_posts, h1]
  · show st1.attempted = _
    rw [h2]
    simp [posts_to_process, initState]

/-- C6 witness: checkpoint set `{1, 3}` against posts `{1, 2, 3, 4}`
attempts exactly posts 2 and 4. -/
theorem resume_processes_unprocessed_witness :
    ∃ st, process_posts cEnvSkip
        [cPost "1", cPost "2", cPost "3", cPost "4"]
        {some "1", some "3"} none = .ok st ∧
      st.attempted = [cPost "2", cPost "4"] := by
  obtain ⟨st, h1, h2⟩ := resume_processes_unprocessed cEnvSkip
    [cPost "1", cPost "2", cPost "3", cPost "4"] {some "1", some "3"}
    (fun _ => ⟨[], rfl⟩)
  refine ⟨st, h1, ?_⟩
  rw [h2]
  decide

/-- The loop distributes over list append, threading the 1-based index. -/
theorem runLoop_append (env : ProcEnv) (xs ys : List Post) (idx : Nat)
    (st : EngineState) :
    runLoop env (xs ++ ys) idx st =
      match runLoop env xs idx st with
      | .ok st1 => runLoop env ys (idx + xs.length) st1
      | .error st1 => .error st1 := by
  induction xs generalizing idx st with
  | nil => simp [runLoop]
  | cons p rest ih =>
    simp only [List.cons_append, runLoop]
    cases processOne env idx p st with
    | ok st1 =>
      dsimp only
      simp only [List.append_eq]
      rw [ih]
      cases hr : runLoop env rest (idx + 1) st1 with
      | ok st2 =>
        dsimp only
        simp only [List.length_cons]
        rw [show idx + 1 + rest.length = idx + (rest.length + 1) from by omega]
      | error st2 => rfl
    | error st1 => rfl

/-- A relevant item whose comment fetch raises makes the step save the
checkpoint set unchanged and re-raise. -/
theorem processOne_fetch_error (env : ProcEnv) (idx : Nat) (p : Post)
    (st : EngineState)
    (hrel : (extract_instagram_username env.loads (env.classify_response p)).1 = true)
    (hf : env.fetch_comments_result p = .error ()) :
    processOne env idx p st =
      .error { st with
        attempted := st.attempted ++ [p],
        saved := st.saved ++ [st.processed_ids] } := by
  simp [processOne, hrel, hf]

/-- C2: if the comment fetch of a relevant item raises, the checkpoint
set — without the failing item — is persisted and the exception
propagates out of the per-item loop: the run terminates with no
subsequent item attempted and with the failing item id not added. -/
theorem comment_fetch_failure_fatal (env : ProcEnv) (all_posts : List Post)
    (progress : Finset (Option String)) (limit : Option Nat)
    (pre : List Post) (p : Post) (suf : List Post) (st : EngineState)
    (hsplit : posts_to_process all_posts progress limit = pre ++ p :: suf)
    (hpre : runLoop env pre 1 (initState progress) = .ok st)
    (hrel : (extract_instagram_username env.loads (env.classify_response p)).1 = true)
    (hf : env.fetch_comments_result p = .error ()) :
    process_posts env all_posts progress limit =
      .error { st with
        attempted := st.attempted ++ [p],
        saved := st.saved ++ [st.processed_ids] } := by
  unfold process_posts
  rw [hsplit, runLoop_append, hpre]
  simp only [runLoop, processOne_fetch_error env (1 + pre.length) p st hrel hf]

/-- C2 witness: a two-post run whose first post is relevant and whose
comment fetch raises stops immediately, saving the empty checkpoint set
and never attempting the second post. -/
theorem comment_fetch_failure_fatal_witness :
    process_posts cEnvFetchFail [cPost "1", cPost "2"] ∅ none =
      .error { initState ∅ with attempted := [cPost "1"], saved := [∅] } := by
  have h := comment_fetch_failure_fatal cEnvFetchFail [cPost "1", cPost "2"]
    ∅ none [] (cPost "1") [cPost "2"] (initState ∅)
    (by decide) rfl (by decide) rfl
  simpa [initState] using h

/-- C3: a relevance classification whose LLM call raises, or whose
response has no brace span, or whose extracted span fails to parse,
yields `(False, None)`; the engine then records the item id in the
checkpoint set and continues with the next item. -/
theorem classification_failure_nonfatal (env : ProcEnv) (idx : Nat)
    (p : Post) (st : EngineState) (rest : List Post)
    (hfail : env.classify_response p = .error () ∨
      ∃ s, env.classify_response p = .ok s ∧
        (braceSpan s = none ∨ ∃ m, braceSpan s = some m ∧ env.loads m = none)) :
    extract_instagram_username env.loads (env.classify_response p) = (false, none) ∧
    processOne env idx p st =
      .ok { st with
        attempted := st.attempted ++ [p],
        processed_ids := insert p.id st.processed_ids } ∧
    runLoop env (p :: rest) idx st = runLoop env rest (idx + 1)
      { st with
        attempted := st.attempted ++ [p],
        processed_ids := insert p.id st.processed_ids } := by
  have h1 : extract_instagram_username env.loads (env.classify_response p)
      = (false, none) := by
    rcases hfail with hc | ⟨s, hs, hb | ⟨m, hm, hl⟩⟩
    · rw [hc]; rfl
    · rw [hs]; simp [extract_instagram_username, hb]
    · rw [hs]; simp [extract_instagram_username, hm, hl]
  have h2 : processOne env idx p st =
      .ok { st with
        attempted := st.attempted ++ [p],
        processed_ids := insert p.id st.processed_ids } := by
    simp [processOne, h1]
  exact ⟨h1, h2, by simp [runLoop, h2]⟩

/-- C3 witness: a raising classification call on a concrete post is
skipped, checkpointed, and the loop moves on. -/
theorem classification_failure_nonfatal_witness :
    extract_instagram_username cEnvSkip.loads
        (cEnvSkip.classify_response (cPost "1")) = (false, none) ∧
    processOne cEnvSkip 1 (cPost "1") (initState ∅) =
      .ok { initState ∅ with
            attempted := (initState ∅).attempted ++ [cPost "1"],
            processed_ids := insert (cPost "1").id (initState ∅).processed_ids } ∧
    runLoop cEnvSkip [cPost "1"] 1 (initState ∅) =
      runLoop cEnvSkip [] 2 { initState ∅ with
        attempted := (initState ∅).attempted ++ [cPost "1"],
        processed_ids := insert (cPost "1").id (initState ∅).processed_ids } :=
  classification_failure_nonfatal cEnvSkip 1 (cPost "1") (initState ∅) []
    (Or.inl rfl)

/-- The assembled feedback comment always ends with the confidence
line. -/
theorem build_comment_ends (post : Post) (comments : List Comment)
    (conf : String) :
    ∃ c, build_comment_text post comments conf =
      c ++ ("Confidence: " ++ conf) := by
  unfold build_comment_text
  obtain ⟨c, hc⟩ := joinNL_ends
    (["Title: " ++ post.title]
      ++ (if post.selftext != "" then ["Post: " ++ pyTake post.selftext 500]
          else [])
      ++ (if comments != [] then
            ("\nTop comments (" ++ toString comments.length ++ "):")
              :: (comments.take 5).map (fun c => "- " ++ pyTake c.body 150)
          else [])
      ++ ["\nReddit link: https://reddit.com" ++ post.permalink])
    ("Confidence: " ++ conf)
  refine ⟨c, ?_⟩
  rw [← hc]
  simp

/-- C7: a scoring call that raises, or whose response carries no
parsable JSON object, makes `analyze_sentiment` return the fixed
`("neutral", "low")` default, and the step persists a feedback row whose
rating is `NEUTRAL` and whose comment text contains `low`. -/
theorem scoring_default_neutral_low (env : ProcEnv) (idx : Nat) (p : Post)
    (st : EngineState) (uname : Option String) (comments : List Comment)
    (hcls : extract_instagram_username env.loads (env.classify_response p)
      = (true, uname))
    (hf : env.fetch_comments_result p = .ok comments)
    (hfail : env.sentiment_response p = .error () ∨
      ∃ s, env.sentiment_response p = .ok s ∧
        (braceSpan s = none ∨ ∃ m, braceSpan s = some m ∧ env.loads m = none)) :
    analyze_sentiment env.loads (env.sentiment_response p) = ("neutral", "low") ∧
    (mkFeedbackRow p uname "neutral" "low" comments st.clock).rating = "NEUTRAL" ∧
    (∃ c1 c2, (mkFeedbackRow p uname "neutral" "low" comments st.clock).comment
      = c1 ++ "low" ++ c2) ∧
    ∃ st1, processOne env idx p st = .ok st1 ∧
      st1.feedback = upsertFeedback st.feedback
        (mkFeedbackRow p uname "neutral" "low" comments st.clock) := by
  have h1 : analyze_sentiment env.loads (env.sentiment_response p)
      = ("neutral", "low") := by
    rcases hfail with hc | ⟨s, hs, hb | ⟨m, hm, hl⟩⟩
    · rw [hc]; rfl
    · rw [hs]; simp [analyze_sentiment, hb]
    · rw [hs]; simp [analyze_sentiment, hm, hl]
  refine ⟨h1, rfl, ?_, ?_⟩
  · obtain ⟨c, hc⟩ := build_comment_ends p comments "low"
    refine ⟨c ++ "Confidence: ", "", ?_⟩
    show build_comment_text p comments "low" = _
    rw [string_append_empty, hc, string_append_assoc]
  · by_cases h5 : idx % 5 = 0
    · refine ⟨{ st with
          attempted := st.attempted ++ [p],
          feedback := insert_feedback st.feedback p uname "neutral" "low"
            comments st.clock,
          clock := st.clock + 1,
          processed_ids := insert p.id st.processed_ids,
          saved := st.saved ++ [insert p.id st.processed_ids] }, ?_, rfl⟩
      simp [processOne, hcls, hf, h1, h5]
    · refine ⟨{ st with
          attempted := st.attempted ++ [p],
          feedback := insert_feedback st.feedback p uname "neutral" "low"
            comments st.clock,
          clock := st.clock + 1,
          processed_ids := insert p.id st.processed_ids }, ?_, rfl⟩
      simp [processOne, hcls, hf, h1, h5]

/-- C7 witness: a raising scoring call on a concrete relevant post with a
successful empty comment fetch. -/
theorem scoring_default_neutral_low_witness :
    analyze_sentiment cEnvScoreFail.loads
        (cEnvScoreFail.sentiment_response (cPost "1")) = ("neutral", "low") ∧
    (mkFeedbackRow (cPost "1") none "neutral" "low" [] (initState ∅).clock).rating
      = "NEUTRAL" ∧
    (∃ c1 c2, (mkFeedbackRow (cPost "1") none "neutral" "low" []
        (initState ∅).clock).comment = c1 ++ "low" ++ c2) ∧
    ∃ st1, processOne cEnvScoreFail 1 (cPost "1") (initState ∅) = .ok st1 ∧
      st1.feedback = upsertFeedback (initState ∅).feedback
        (mkFeedbackRow (cPost "1") none "neutral" "low" [] (initState ∅).clock) :=
  scoring_default_neutral_low cEnvScoreFail 1 (cPost "1") (initState ∅) none []
    (by decide) rfl (Or.inl rfl)

/-- C10: a relevant post with no extracted handle is persisted under the
fixed receiver `unknown_instagram_user` (and giver `unknown` when the
post has no author), so two handle-less posts by the same author upsert
the same `(giver, receiver)` key: the second write leaves exactly one row
for that key, carrying the second rating and comment. -/
theorem feedback_unknown_receiver_merge
    (p1 p2 : Post) (s1 c1 s2 c2 : String) (cm1 cm2 : List Comment)
    (T : List FeedbackRow) (t1 t2 : Nat)
    (hA : p1.author = p2.author)
    (hT : ∀ r ∈ T, ¬ (r.giver = p1.author.getD "unknown" ∧
      r.receiver = "unknown_instagram_user")) :
    (mkFeedbackRow p1 none s1 c1 cm1 t1).receiver = "unknown_instagram_user" ∧
    (p1.author = none → (mkFeedbackRow p1 none s1 c1 cm1 t1).giver = "unknown") ∧
    (insert_feedback (insert_feedback T p1 none s1 c1 cm1 t1)
        p2 none s2 c2 cm2 t2).filter
        (fun r => sameKey (mkFeedbackRow p1 none s1 c1 cm1 t1) r) =
      [mkFeedbackRow p2 none s2 c2 cm2 t2] := by
  refine ⟨rfl, ?_, ?_⟩
  · intro h
    simp [mkFeedbackRow, h]
  · have hanyT : T.any (sameKey (mkFeedbackRow p1 none s1 c1 cm1 t1)) = false := by
      rw [List.any_eq_false]
      intro r hr
      simpa [sameKey, mkFeedbackRow] using hT r hr
    have h3 : insert_feedback T p1 none s1 c1 cm1 t1 =
        T ++ [mkFeedbackRow p1 none s1 c1 cm1 t1] := by
      simp [insert_feedback, upsertFeedback, hanyT]
    rw [h3]
    have hk12 : sameKey (mkFeedbackRow p2 none s2 c2 cm2 t2)
        (mkFeedbackRow p1 none s1 c1 cm1 t1) = true := by
      simp [sameKey, mkFeedbackRow, hA]
    have hany2 : (T ++ [mkFeedbackRow p1 none s1 c1 cm1 t1]).any
        (sameKey (mkFeedbackRow p2 none s2 c2 cm2 t2)) = true := by
      simp [List.any_append, hk12]
    unfold insert_feedback upsertFeedback
    rw [if_pos hany2, List.map_append]
    have hmapT : T.map (fun r =>
        if sameKey (mkFeedbackRow p2 none s2 c2 cm2 t2) r then
          { r with rating := (mkFeedbackRow p2 none s2 c2 cm2 t2).rating,
                   comment := (mkFeedbackRow p2 none s2 c2 cm2 t2).comment,
                   updated_at := (mkFeedbackRow p2 none s2 c2 cm2 t2).updated_at }
        else r) = T := by
      rw [show T = T.map id from (List.map_id T).symm]
      simp only [List.map_map]
      apply List.map_congr_left
      intro r hr
      have hn : sameKey (mkFeedbackRow p2 none s2 c2 cm2 t2) r = false := by
        have := hT r (by simpa using hr)
        simpa [sameKey, mkFeedbackRow, hA] using this
      simp [hn]
    rw [hmapT]
    have hrepl : (if sameKey (mkFeedbackRow p2 none s2 c2 cm2 t2)
          (mkFeedbackRow p1 none s1 c1 cm1 t1) then
        { mkFeedbackRow p1 none s1 c1 cm1 t1 with
          rating := (mkFeedbackRow p2 none s2 c2 cm2 t2).rating,
          comment := (mkFeedbackRow p2 none s2 c2 cm2 t2).comment,
          updated_at := (mkFeedbackRow p2 none s2 c2 cm2 t2).updated_at }
      else mkFeedbackRow p1 none s1 c1 cm1 t1) =
        mkFeedbackRow p2 none s2 c2 cm2 t2 := by
      rw [if_pos hk12]
      simp [mkFeedbackRow, hA]
    rw [List.map_singleton, hrepl, List.filter_append]
    have hfilT : T.filter
        (fun r => sameKey (mkFeedbackRow p1 none s1 c1 cm1 t1) r) = [] := by
      rw [List.filter_eq_nil_iff]
      intro r hr
      simpa [sameKey, mkFeedbackRow] using hT r hr
    have hk21 : sameKey (mkFeedbackRow p1 none s1 c1 cm1 t1)
        (mkFeedbackRow p2 none s2 c2 cm2 t2) = true := by
      simp [sameKey, mkFeedbackRow, hA]
    simp [hfilT, hk21]

/-- C10 witness: two handle-less feedback writes for the same authorless
post collapse to one row keyed `(unknown, unknown_instagram_user)`
carrying the second rating and comment. -/
theorem feedback_unknown_receiver_merge_witness :
    (mkFeedbackRow cPostNoAuthor none "positive" "high" [] 0).receiver
      = "unknown_instagram_user" ∧
    (cPostNoAuthor.author = none →
      (mkFeedbackRow cPostNoAuthor none "positive" "high" [] 0).giver
        = "unknown") ∧
    (insert_feedback (insert_feedback [] cPostNoAuthor none "positive" "high" [] 0)
        cPostNoAuthor none "negative" "low" [] 1).filter
        (fun r => sameKey (mkFeedbackRow cPostNoAuthor none "positive" "high" [] 0) r) =
      [mkFeedbackRow cPostNoAuthor none "negative" "low" [] 1] :=
  feedback_unknown_receiver_merge cPostNoAuthor cPostNoAuthor
    "positive" "high" "negative" "low" [] [] [] 0 1 rfl (by simp)

end PurpleCheck
